import Mathlib

/-!
# Verification of the personal_expense repository

Shallow embedding of the expense store (`src/db_helper.py`) and the HTTP
create/list/delete surface (`src/app.py`), with theorems checking the
design document's claims against the code.

Modelling conventions:
* Timestamps (`created_at`, "now") are seconds on a single logical clock,
  as `Nat`.  The code compares `'%Y-%m-%d %H:%M:%S'` strings, whose
  lexicographic order at whole-second granularity coincides with the
  chronological order modelled here.
* SQL `REAL` amounts are modelled as `Rat`; the code's dedup match is
  exact equality on the value, which `Rat` equality mirrors.
* A nullable SQL `TEXT` column is `Option String`; the SQL three-valued
  predicate `description = ? OR (description IS NULL AND ? IS NULL)`
  is `descMatch` below.
* The `AUTOINCREMENT` counter (SQLite's `sqlite_sequence` entry, which
  never decreases, even across deletions) is the `seq` field of `DB`.
-/

namespace PersonalExpense

/-- One row of the `personal_expenses` table (`init_db` in db_helper.py). -/
structure Expense where
  id : Nat
  amount : Rat
  category : String
  description : Option String
  expense_date : String
  created_at : Nat
deriving Repr, DecidableEq

/-- The database state: the `AUTOINCREMENT` sequence value and the rows,
in insertion order. -/
structure DB where
  seq : Nat
  rows : List Expense
deriving Repr, DecidableEq

/-- The SQL predicate `description = ? OR (description IS NULL AND ? IS NULL)`
from `check_duplicate`: under SQL three-valued logic it holds exactly when
both sides are non-NULL and equal, or both are NULL. -/
def descMatch (stored given : Option String) : Bool :=
  match stored, given with
  | some s, some g => s == g
  | none, none => true
  | _, _ => false

/-- The non-temporal part of the `WHERE` clause of `check_duplicate`:
identical amount, category and expense_date, and a description match. -/
def matchesTuple (amount : Rat) (category expense_date : String)
    (description : Option String) (e : Expense) : Bool :=
  decide (e.amount = amount) && decide (e.category = category) &&
    decide (e.expense_date = expense_date) && descMatch e.description description

/-- Embedding of `ORDER BY created_at DESC LIMIT 1` over the candidate rows: a row with
maximal `created_at` (earliest such row on ties). -/
def maxByCreatedAt : List Expense → Option Expense
  | [] => none
  | e :: es =>
    match maxByCreatedAt es with
    | none => some e
    | some m => if e.created_at < m.created_at then some m else some e

/-- Embedding of `check_duplicate(amount, category, expense_date, description,
time_window_minutes=5)` from db_helper.py: the latest row matching the tuple
whose `created_at` is at or after `now - 60 * time_window_minutes`. -/
def check_duplicate (db : DB) (now : Nat) (amount : Rat)
    (category expense_date : String) (description : Option String)
    (time_window_minutes : Nat := 5) : Option Expense :=
  maxByCreatedAt (db.rows.filter fun e =>
    matchesTuple amount category expense_date description e &&
      decide (now - 60 * time_window_minutes ≤ e.created_at))

/-- The `status` field of the dict returned by `add_expense`. -/
inductive AddStatus where
  | created
  | duplicate
deriving Repr, DecidableEq

/-- The dict returned by `add_expense`. -/
structure AddResult where
  status : AddStatus
  expense : Expense
  message : String
deriving Repr, DecidableEq

/-- Embedding of `add_expense(amount, category, expense_date, description=None)` from
db_helper.py: return the existing row as a duplicate if `check_duplicate`
finds one, otherwise insert a fresh row with a new id and `created_at = now`. -/
def add_expense (db : DB) (now : Nat) (amount : Rat)
    (category expense_date : String) (description : Option String := none) :
    AddResult × DB :=
  match check_duplicate db now amount category expense_date description with
  | some existing =>
    ({ status := .duplicate, expense := existing,
       message := "Duplicate expense detected. Returning existing record." }, db)
  | none =>
    let e : Expense :=
      { id := db.seq + 1, amount := amount, category := category,
        description := description, expense_date := expense_date,
        created_at := now }
    ({ status := .created, expense := e,
       message := "Expense created successfully." },
     { seq := db.seq + 1, rows := db.rows ++ [e] })

/-- Python truthiness of the optional `category` argument: `if category:`
is false for `None` and for the empty string. -/
def truthy : Option String → Bool
  | none => false
  | some s => s ≠ ""

/-- The row set selected by `get_expenses` / `get_total_expenses` after the
optional `WHERE category = ?` filter (applied only when `category` is truthy). -/
def filteredRows (db : DB) : Option String → List Expense
  | none => db.rows
  | some s => if s = "" then db.rows else db.rows.filter fun e => decide (e.category = s)

/-- Embedding of `ORDER BY expense_date ASC, created_at ASC` as a two-key comparison. -/
def ascLE (a b : Expense) : Bool :=
  decide (a.expense_date < b.expense_date) ||
    (decide (a.expense_date = b.expense_date) && decide (a.created_at ≤ b.created_at))

/-- Embedding of `ORDER BY expense_date DESC, created_at DESC`: the reverse comparison. -/
def descLE (a b : Expense) : Bool := ascLE b a

/-- Embedding of `get_expenses(category=None, sort_by_date_desc=False)` from db_helper.py. -/
def get_expenses (db : DB) (category : Option String := none)
    (sort_by_date_desc : Bool := false) : List Expense :=
  if sort_by_date_desc then (filteredRows db category).mergeSort descLE
  else (filteredRows db category).mergeSort ascLE

/-- Embedding of `get_total_expenses(category=None)` from db_helper.py: `SUM(amount)` over
the filtered rows, with SQL's `NULL` sum on the empty set mapped to `0.0` by
the `result['total'] if result['total'] else 0.0` fallback. -/
def get_total_expenses (db : DB) (category : Option String := none) : Rat :=
  ((filteredRows db category).map (·.amount)).sum

/-- Embedding of `delete_expense(expense_id)` from db_helper.py: returns whether a row with
that id existed, and the state after `DELETE FROM personal_expenses WHERE id = ?`. -/
def delete_expense (db : DB) (expense_id : Nat) : Bool × DB :=
  if db.rows.any fun e => decide (e.id = expense_id) then
    (true, { db with rows := db.rows.filter fun e => decide (e.id ≠ expense_id) })
  else (false, db)

/-! ## The HTTP surface (`src/app.py`) -/

/-- Embedding of `VALID_CATEGORIES` from app.py. -/
def VALID_CATEGORIES : List String :=
  ["FOOD", "RENT", "TRANSPORT", "GROCERIES", "UTILITIES",
   "ENTERTAINMENT", "HEALTH", "EDUCATION", "SHOPPING", "TRAVEL", "OTHER"]

/-- The JSON `amount` value as seen by `float(amount)`: either something
`float` converts to a numeric value, or something raising
`ValueError`/`TypeError`. -/
inductive AmountInput where
  | num (q : Rat)
  | nonNumeric
deriving Repr, DecidableEq

/-- Python `float(amount)` as a partial function to the numeric value. -/
def pyFloat : AmountInput → Option Rat
  | .num q => some q
  | .nonNumeric => none

/-- The `description` member of the JSON request body: missing key,
explicit `null`, or a string. -/
inductive DescField where
  | absent
  | null
  | str (s : String)
deriving Repr, DecidableEq

/-- Python `str.upper()` (as used on the submitted category, which is
ASCII for all accepted values): uppercase every character. -/
def pyUpper (s : String) : String := ⟨s.data.map Char.toUpper⟩

/-- Embedding of `data.get('description', '')` from app.py: the default `''` applies only
when the key is missing; an explicit JSON `null` yields Python `None`. -/
def descValue : DescField → Option String
  | .absent => some ""
  | .null => none
  | .str s => some s

/-- The JSON request body of `POST /expenses`.  For `amount`, `category` and
`date`, `data.get(k)` returns `None` both for a missing key and an explicit
`null`, so a plain `Option` suffices there. -/
structure CreateRequest where
  amount : Option AmountInput
  category : Option String
  date : Option String
  description : DescField
deriving Repr, DecidableEq

/-- The response of `POST /expenses`: a 400 client error, a 200 duplicate
outcome, or a 201 created outcome. -/
inductive CreateResponse where
  | clientError (msg : String)
  | duplicate (r : AddResult)
  | created (r : AddResult)
deriving Repr, DecidableEq

/-- Whether a response is a 400 client error. -/
def CreateResponse.isClientError : CreateResponse → Bool
  | .clientError _ => true
  | _ => false

/-- Embedding of `create_expense` from app.py: field-presence checks, amount parsing and
positivity, category normalization to uppercase and membership in
`VALID_CATEGORIES`, then `db_helper.add_expense`, in the code's order. -/
def create_expense (db : DB) (now : Nat) (req : CreateRequest) :
    CreateResponse × DB :=
  match req.amount with
  | none => (.clientError "amount is required", db)
  | some amtIn =>
    match req.category with
    | none => (.clientError "category is required", db)
    | some cat0 =>
      if cat0 = "" then (.clientError "category is required", db)
      else
        match req.date with
        | none => (.clientError "date is required", db)
        | some d =>
          if d = "" then (.clientError "date is required", db)
          else
            match pyFloat amtIn with
            | none => (.clientError "amount must be a valid number", db)
            | some q =>
              if q ≤ 0 then (.clientError "amount must be greater than 0", db)
              else
                if pyUpper cat0 ∈ VALID_CATEGORIES then
                  match (add_expense db now q (pyUpper cat0) d
                      (descValue req.description)).1.status with
                  | .duplicate =>
                    (.duplicate (add_expense db now q (pyUpper cat0) d
                        (descValue req.description)).1,
                     (add_expense db now q (pyUpper cat0) d
                        (descValue req.description)).2)
                  | .created =>
                    (.created (add_expense db now q (pyUpper cat0) d
                        (descValue req.description)).1,
                     (add_expense db now q (pyUpper cat0) d
                        (descValue req.description)).2)
                else (.clientError "category must be one of the valid categories", db)

/-! ## Operations and well-formedness, for the id invariants -/

/-- A store mutation: one `add_expense` call or one `delete_expense` call. -/
inductive Op where
  | add (now : Nat) (amount : Rat) (category expense_date : String)
      (description : Option String)
  | del (expense_id : Nat)
deriving Repr

/-- Apply one mutation to the database state. -/
def applyOp (db : DB) : Op → DB
  | .add now amount category expense_date description =>
    (add_expense db now amount category expense_date description).2
  | .del expense_id => (delete_expense db expense_id).2

/-- Well-formedness of a database state: every row id is at most the
`AUTOINCREMENT` sequence value, and the ids are pairwise distinct. -/
def DBwf (db : DB) : Prop :=
  (∀ e ∈ db.rows, e.id ≤ db.seq) ∧ (db.rows.map (·.id)).Nodup

/-! ## Helper lemmas -/

theorem descMatch_self (d : Option String) : descMatch d d = true := by
  cases d <;> simp [descMatch]

theorem matchesTuple_mk (i : Nat) (a : Rat) (c : String) (ds : Option String)
    (d : String) (t : Nat) :
    matchesTuple a c d ds
      { id := i, amount := a, category := c, description := ds,
        expense_date := d, created_at := t } = true := by
  simp [matchesTuple, descMatch_self]

theorem maxByCreatedAt_mem : ∀ {l : List Expense} {m : Expense},
    maxByCreatedAt l = some m → m ∈ l
  | [], _, h => by simp [maxByCreatedAt] at h
  | e :: es, m, h => by
    cases hes : maxByCreatedAt es with
    | none =>
      simp only [maxByCreatedAt, hes, Option.some.injEq] at h
      subst h; exact List.mem_cons_self e es
    | some m' =>
      simp only [maxByCreatedAt, hes] at h
      by_cases hlt : e.created_at < m'.created_at
      · rw [if_pos hlt, Option.some.injEq] at h
        subst h
        exact List.mem_cons_of_mem e (maxByCreatedAt_mem hes)
      · rw [if_neg hlt, Option.some.injEq] at h
        subst h; exact List.mem_cons_self e es

theorem maxByCreatedAt_eq_none : ∀ {l : List Expense},
    maxByCreatedAt l = none ↔ l = []
  | [] => by simp [maxByCreatedAt]
  | e :: es => by
    cases hes : maxByCreatedAt es with
    | none => simp [maxByCreatedAt, hes]
    | some m' =>
      simp only [maxByCreatedAt, hes]
      constructor
      · intro h; exfalso; revert h; split <;> simp
      · intro h; cases h

theorem maxByCreatedAt_isSome_of_mem {l : List Expense} {e : Expense}
    (h : e ∈ l) : ∃ m, maxByCreatedAt l = some m := by
  cases hm : maxByCreatedAt l with
  | none => rw [maxByCreatedAt_eq_none] at hm; subst hm; cases h
  | some m => exact ⟨m, rfl⟩

/-- The function `check_duplicate` at the default 5-minute window returns a row exactly
when some stored row matches the tuple and sits inside the window. -/
theorem check_duplicate_eq_none_iff (db : DB) (now : Nat) (a : Rat)
    (c d : String) (ds : Option String) :
    check_duplicate db now a c d ds = none ↔
      ∀ e ∈ db.rows, matchesTuple a c d ds e = true → e.created_at < now - 300 := by
  unfold check_duplicate
  rw [maxByCreatedAt_eq_none, List.filter_eq_nil_iff]
  constructor
  · intro h e he hm
    have := h e he
    simp only [hm, Bool.true_and, decide_eq_true_eq] at this
    omega
  · intro h e he
    simp only [Bool.and_eq_true, decide_eq_true_eq, not_and]
    intro hm hle
    exact absurd hle (by have := h e he hm; omega)

theorem check_duplicate_mem {db : DB} {now : Nat} {a : Rat} {c d : String}
    {ds : Option String} {m : Expense}
    (h : check_duplicate db now a c d ds = some m) :
    m ∈ db.rows ∧ matchesTuple a c d ds m = true ∧ now - 300 ≤ m.created_at := by
  unfold check_duplicate at h
  have hmem := maxByCreatedAt_mem h
  rw [List.mem_filter] at hmem
  obtain ⟨hrows, hpred⟩ := hmem
  simp only [Bool.and_eq_true, decide_eq_true_eq] at hpred
  exact ⟨hrows, hpred.1, by omega⟩

theorem check_duplicate_isSome {db : DB} {now : Nat} {a : Rat} {c d : String}
    {ds : Option String} {e : Expense} (he : e ∈ db.rows)
    (hm : matchesTuple a c d ds e = true) (ht : now - 300 ≤ e.created_at) :
    ∃ m, check_duplicate db now a c d ds = some m := by
  unfold check_duplicate
  apply maxByCreatedAt_isSome_of_mem (e := e)
  rw [List.mem_filter]
  exact ⟨he, by simp [hm, ht]⟩

/-- Unfolding of `add_expense` when the duplicate check finds nothing. -/
theorem add_expense_of_none {db : DB} {now : Nat} {a : Rat} {c d : String}
    {ds : Option String} (h : check_duplicate db now a c d ds = none) :
    add_expense db now a c d ds =
      ({ status := .created,
         expense := { id := db.seq + 1, amount := a, category := c,
                      description := ds, expense_date := d, created_at := now },
         message := "Expense created successfully." },
       { seq := db.seq + 1,
         rows := db.rows ++
           [{ id := db.seq + 1, amount := a, category := c, description := ds,
              expense_date := d, created_at := now }] }) := by
  unfold add_expense
  rw [h]

/-- Unfolding of `add_expense` when the duplicate check returns a row. -/
theorem add_expense_of_some {db : DB} {now : Nat} {a : Rat} {c d : String}
    {ds : Option String} {m : Expense}
    (h : check_duplicate db now a c d ds = some m) :
    add_expense db now a c d ds =
      ({ status := .duplicate, expense := m,
         message := "Duplicate expense detected. Returning existing record." },
       db) := by
  unfold add_expense
  rw [h]

/-! ## Claim theorems -/

/-- C1. If `record` is called twice with the same
(amount, category, expense_date, description) and the first call created a
row (no pre-existing in-window match), then as long as the second call
happens within the trailing 5-minute window of the first, the second call
inserts no new row, performs no mutation, and returns a pre-existing
matching record with a `duplicate` status: exactly one stored row exists
for the two calls. -/
theorem duplicate_within_window_suppressed
    (db : DB) (t1 t2 : Nat) (amount : Rat) (category expense_date : String)
    (description : Option String)
    (h1 : check_duplicate db t1 amount category expense_date description = none)
    (h12 : t1 ≤ t2) (hwin : t2 ≤ t1 + 300) :
    (add_expense db t1 amount category expense_date description).1.status
        = .created ∧
    (add_expense (add_expense db t1 amount category expense_date description).2
        t2 amount category expense_date description).1.status = .duplicate ∧
    (add_expense (add_expense db t1 amount category expense_date description).2
        t2 amount category expense_date description).2
      = (add_expense db t1 amount category expense_date description).2 ∧
    (add_expense db t1 amount category expense_date description).2.rows.length
      = db.rows.length + 1 ∧
    (add_expense (add_expense db t1 amount category expense_date description).2
        t2 amount category expense_date description).1.expense
      ∈ (add_expense db t1 amount category expense_date description).2.rows ∧
    matchesTuple amount category expense_date description
      (add_expense (add_expense db t1 amount category expense_date description).2
        t2 amount category expense_date description).1.expense = true := by
  rw [add_expense_of_none h1]
  set e1 : Expense :=
    { id := db.seq + 1, amount := amount, category := category,
      description := description, expense_date := expense_date,
      created_at := t1 } with he1
  set db1 : DB := { seq := db.seq + 1, rows := db.rows ++ [e1] } with hdb1
  have he1mem : e1 ∈ db1.rows := by
    rw [hdb1]; exact List.mem_append_right _ (List.mem_cons_self e1 [])
  have he1match : matchesTuple amount category expense_date description e1 = true :=
    matchesTuple_mk _ _ _ _ _ _
  have he1win : t2 - 300 ≤ e1.created_at := by
    have ht : e1.created_at = t1 := by rw [he1]
    omega
  obtain ⟨m, hm⟩ := check_duplicate_isSome he1mem he1match he1win
  obtain ⟨hmmem, hmmatch, _⟩ := check_duplicate_mem hm
  rw [add_expense_of_some hm]
  refine ⟨rfl, rfl, rfl, ?_, hmmem, hmmatch⟩
  rw [hdb1]
  simp

/-- Witness for C1 at a concrete input: one row stored after recording
(100, FOOD, 2024-01-15, "lunch") at t=1000 and again at t=1060. -/
theorem duplicate_within_window_suppressed_witness :
    check_duplicate ⟨0, []⟩ 1000 100 "FOOD" "2024-01-15" (some "lunch") = none ∧
    (1000 : Nat) ≤ 1060 ∧ (1060 : Nat) ≤ 1000 + 300 ∧
    ((add_expense (⟨0, []⟩ : DB) 1000 100 "FOOD" "2024-01-15"
        (some "lunch")).1.status = .created ∧
     (add_expense (add_expense (⟨0, []⟩ : DB) 1000 100 "FOOD" "2024-01-15"
        (some "lunch")).2 1060 100 "FOOD" "2024-01-15"
        (some "lunch")).1.status = .duplicate ∧
     (add_expense (add_expense (⟨0, []⟩ : DB) 1000 100 "FOOD" "2024-01-15"
        (some "lunch")).2 1060 100 "FOOD" "2024-01-15" (some "lunch")).2
       = (add_expense (⟨0, []⟩ : DB) 1000 100 "FOOD" "2024-01-15"
        (some "lunch")).2 ∧
     (add_expense (⟨0, []⟩ : DB) 1000 100 "FOOD" "2024-01-15"
        (some "lunch")).2.rows.length = ([] : List Expense).length + 1 ∧
     (add_expense (add_expense (⟨0, []⟩ : DB) 1000 100 "FOOD" "2024-01-15"
        (some "lunch")).2 1060 100 "FOOD" "2024-01-15" (some "lunch")).1.expense
       ∈ (add_expense (⟨0, []⟩ : DB) 1000 100 "FOOD" "2024-01-15"
        (some "lunch")).2.rows ∧
     matchesTuple 100 "FOOD" "2024-01-15" (some "lunch")
       (add_expense (add_expense (⟨0, []⟩ : DB) 1000 100 "FOOD" "2024-01-15"
        (some "lunch")).2 1060 100 "FOOD" "2024-01-15"
        (some "lunch")).1.expense = true) :=
  ⟨by decide, by decide, by decide,
   duplicate_within_window_suppressed ⟨0, []⟩ 1000 1060 100 "FOOD" "2024-01-15"
     (some "lunch") (by decide) (by decide) (by decide)⟩

/-- C2. If every stored record matching the
(amount, category, expense_date, description) tuple has a `created_at`
strictly more than 5 minutes before the current instant, then recording
the tuple again inserts a new row whose id differs from every stored
row's id: two stored rows with distinct ids result from the two calls. -/
theorem expired_window_inserts_new_row
    (db : DB) (now : Nat) (amount : Rat) (category expense_date : String)
    (description : Option String)
    (hwf : DBwf db)
    (hexp : ∀ e ∈ db.rows,
      matchesTuple amount category expense_date description e = true →
        e.created_at + 300 < now) :
    (add_expense db now amount category expense_date description).1.status
        = .created ∧
    (add_expense db now amount category expense_date description).2.rows
      = db.rows ++
        [(add_expense db now amount category expense_date description).1.expense] ∧
    ∀ e ∈ db.rows,
      e.id ≠ (add_expense db now amount category expense_date
        description).1.expense.id := by
  have hnone : check_duplicate db now amount category expense_date description
      = none := by
    rw [check_duplicate_eq_none_iff]
    intro e he hm
    have := hexp e he hm
    omega
  rw [add_expense_of_none hnone]
  refine ⟨rfl, rfl, ?_⟩
  intro e he
  have hle := hwf.1 e he
  show e.id ≠ db.seq + 1
  omega

/-- Concrete store for the C2 witness: one matching row recorded at t=1000. -/
def dbGap : DB :=
  ⟨1, [⟨1, 100, "FOOD", some "lunch", "2024-01-15", 1000⟩]⟩

/-- Witness for C2: re-recording the same tuple 301 seconds later creates a
second row with a fresh id. -/
theorem expired_window_inserts_new_row_witness :
    DBwf dbGap ∧
    (∀ e ∈ dbGap.rows,
      matchesTuple 100 "FOOD" "2024-01-15" (some "lunch") e = true →
        e.created_at + 300 < 1301) ∧
    ((add_expense dbGap 1301 100 "FOOD" "2024-01-15"
        (some "lunch")).1.status = .created ∧
     (add_expense dbGap 1301 100 "FOOD" "2024-01-15" (some "lunch")).2.rows
       = dbGap.rows ++
         [(add_expense dbGap 1301 100 "FOOD" "2024-01-15"
            (some "lunch")).1.expense] ∧
     ∀ e ∈ dbGap.rows,
       e.id ≠ (add_expense dbGap 1301 100 "FOOD" "2024-01-15"
         (some "lunch")).1.expense.id) :=
  ⟨⟨by decide, by decide⟩, by decide,
   expired_window_inserts_new_row dbGap 1301 100 "FOOD" "2024-01-15"
     (some "lunch") ⟨by decide, by decide⟩ (by decide)⟩

/-- C3 counterexample. Recording (50, FOOD, 2024-01-15, "") at t=1000
and then (50, FOOD, 2024-01-15, null) at t=1060 — well inside the 5-minute
window — does not yield a duplicate pair: the second call returns a
`created` status and the store holds two rows, because the SQL predicate
`description = ? OR (description IS NULL AND ? IS NULL)` is false when one
side is NULL and the other is the empty string. -/
theorem empty_vs_null_description_not_duplicate :
    (add_expense (add_expense (⟨0, []⟩ : DB) 1000 50 "FOOD" "2024-01-15"
        (some "")).2 1060 50 "FOOD" "2024-01-15" none).1.status = .created ∧
    (add_expense (add_expense (⟨0, []⟩ : DB) 1000 50 "FOOD" "2024-01-15"
        (some "")).2 1060 50 "FOOD" "2024-01-15" none).2.rows.length = 2 := by
  decide

/-- C3 amended. The store's duplicate match treats an absent (null)
description and an empty-string description as distinct: each form matches
only itself (`descMatch` is false between `some ""` and `none`, in both
orders), so recording the tuple with one description form and then with any
non-matching form — at any two instants, in particular within the 5-minute
window — yields two stored rows, both with `created` status.  (The two
forms are merged only at the HTTP surface, where an omitted description is
normalized to the empty string before reaching the store.) -/
theorem store_null_empty_descriptions_distinct
    (t1 t2 : Nat) (amount : Rat) (category expense_date : String)
    (d1 d2 : Option String) (hne : descMatch d1 d2 = false) :
    descMatch (some "") none = false ∧ descMatch none (some "") = false ∧
    (add_expense (⟨0, []⟩ : DB) t1 amount category expense_date d1).1.status
        = .created ∧
    (add_expense (add_expense (⟨0, []⟩ : DB) t1 amount category expense_date
        d1).2 t2 amount category expense_date d2).1.status = .created ∧
    (add_expense (add_expense (⟨0, []⟩ : DB) t1 amount category expense_date
        d1).2 t2 amount category expense_date d2).2.rows.length = 2 := by
  have hm : matchesTuple amount category expense_date d2
      (⟨1, amount, category, d1, expense_date, t1⟩ : Expense) = false := by
    simp [matchesTuple, hne]
  have h2 : check_duplicate
      (⟨1, [⟨1, amount, category, d1, expense_date, t1⟩]⟩ : DB) t2
      amount category expense_date d2 = none := by
    unfold check_duplicate
    rw [maxByCreatedAt_eq_none, List.filter_eq_nil_iff]
    intro e he
    simp only [List.mem_singleton] at he
    subst he
    simp [hm]
  refine ⟨rfl, rfl, rfl, ?_, ?_⟩
  · show (add_expense (⟨1, [⟨1, amount, category, d1, expense_date, t1⟩]⟩ : DB)
        t2 amount category expense_date d2).1.status = .created
    rw [add_expense_of_none h2]
  · show (add_expense (⟨1, [⟨1, amount, category, d1, expense_date, t1⟩]⟩ : DB)
        t2 amount category expense_date d2).2.rows.length = 2
    rw [add_expense_of_none h2]
    rfl

/-- Witness for the amended C3: the concrete ("" then null) pair from the
design document's example, 60 seconds apart, produces two created rows. -/
theorem store_null_empty_descriptions_distinct_witness :
    descMatch (some "") none = false ∧
    (descMatch (some "") none = false ∧ descMatch none (some "") = false ∧
     (add_expense (⟨0, []⟩ : DB) 1000 50 "FOOD" "2024-01-15"
        (some "")).1.status = .created ∧
     (add_expense (add_expense (⟨0, []⟩ : DB) 1000 50 "FOOD" "2024-01-15"
        (some "")).2 1060 50 "FOOD" "2024-01-15" none).1.status = .created ∧
     (add_expense (add_expense (⟨0, []⟩ : DB) 1000 50 "FOOD" "2024-01-15"
        (some "")).2 1060 50 "FOOD" "2024-01-15" none).2.rows.length = 2) :=
  ⟨by decide,
   store_null_empty_descriptions_distinct 1000 1060 50 "FOOD" "2024-01-15"
     (some "") none (by decide)⟩

/-- Rows after `add_expense`: each row either was already stored or is the
freshly inserted row with id `seq + 1` and `created_at = now`. -/
theorem mem_add_expense_rows {db : DB} {now : Nat} {a : Rat} {c d : String}
    {ds : Option String} {e : Expense}
    (he : e ∈ (add_expense db now a c d ds).2.rows) :
    e ∈ db.rows ∨
      e = { id := db.seq + 1, amount := a, category := c, description := ds,
            expense_date := d, created_at := now } := by
  cases h : check_duplicate db now a c d ds with
  | some m => rw [add_expense_of_some h] at he; exact .inl he
  | none =>
    rw [add_expense_of_none h] at he
    rcases List.mem_append.1 he with h' | h'
    · exact .inl h'
    · simp only [List.mem_singleton] at h'
      exact .inr h'

/-- Exhaustive case analysis of the `POST /expenses` handler: either it
returns a 400 client error and leaves the store untouched, or all
validations passed — the amount parsed to a positive number, the
uppercased category is valid, the date is present — and the handler
forwarded to `add_expense` and returned its outcome as a duplicate or
created response. -/
theorem create_expense_cases (db : DB) (now : Nat) (req : CreateRequest) :
    ((create_expense db now req).1.isClientError = true ∧
      (create_expense db now req).2 = db) ∨
    (∃ a q c d, req.amount = some a ∧ pyFloat a = some q ∧ 0 < q ∧
      req.category = some c ∧ c ≠ "" ∧ pyUpper c ∈ VALID_CATEGORIES ∧
      req.date = some d ∧ d ≠ "" ∧
      (create_expense db now req).2
        = (add_expense db now q (pyUpper c) d (descValue req.description)).2 ∧
      ((create_expense db now req).1
          = .duplicate (add_expense db now q (pyUpper c) d
              (descValue req.description)).1 ∨
       (create_expense db now req).1
          = .created (add_expense db now q (pyUpper c) d
              (descValue req.description)).1)) := by
  obtain ⟨amt, cat, date, desc⟩ := req
  unfold create_expense
  cases amt with
  | none => exact .inl ⟨rfl, rfl⟩
  | some a =>
    cases cat with
    | none => exact .inl ⟨rfl, rfl⟩
    | some c =>
      dsimp only
      split
      · exact .inl ⟨rfl, rfl⟩
      next hc =>
        cases date with
        | none => exact .inl ⟨rfl, rfl⟩
        | some d =>
          dsimp only
          split
          · exact .inl ⟨rfl, rfl⟩
          next hd =>
            cases hf : pyFloat a with
            | none => exact .inl ⟨rfl, rfl⟩
            | some q =>
              dsimp only
              split
              · exact .inl ⟨rfl, rfl⟩
              next hq =>
                split
                next hv =>
                  refine .inr ⟨a, q, c, d, rfl, hf, lt_of_not_le hq, rfl, hc,
                    hv, rfl, hd, ?_⟩
                  cases hs : (add_expense db now q (pyUpper c) d
                      (descValue desc)).1.status <;>
                    exact ⟨rfl, by simp⟩
                next hv => exact .inl ⟨rfl, rfl⟩

/-- A create request whose amount is missing, fails `float()`, or parses to
a value not strictly greater than 0. -/
def badAmount (req : CreateRequest) : Prop :=
  req.amount = none ∨
    ∃ a, req.amount = some a ∧
      (pyFloat a = none ∨ ∃ q, pyFloat a = some q ∧ q ≤ 0)

/-- If every stored amount is positive it stays so after `add_expense`
with a positive amount. -/
theorem add_expense_amount_preserved (db : DB) (now : Nat) (a : Rat)
    (c d : String) (ds : Option String)
    (hpos : ∀ e ∈ db.rows, 0 < e.amount) (ha : 0 < a) :
    ∀ e ∈ (add_expense db now a c d ds).2.rows, 0 < e.amount := by
  intro e he
  rcases mem_add_expense_rows he with h | h
  · exact hpos e h
  · subst h; exact ha

/-- C4. Every create request whose amount is missing, non-numeric, or
not strictly greater than 0 is rejected with a 400 client error and causes
no store mutation; and the create endpoint preserves the positive-amount
invariant, so every record that reaches storage through it has
`amount > 0`. -/
theorem amount_validation_and_positivity (db : DB) (now : Nat)
    (req : CreateRequest) :
    (badAmount req →
      (create_expense db now req).1.isClientError = true ∧
      (create_expense db now req).2 = db) ∧
    ((∀ e ∈ db.rows, 0 < e.amount) →
      ∀ e ∈ (create_expense db now req).2.rows, 0 < e.amount) := by
  rcases create_expense_cases db now req with ⟨herr, hdb⟩ |
    ⟨a, q, c, d, ha, hf, hq, hcat, hc, hv, hdate, hd, hdb, hres⟩
  · exact ⟨fun _ => ⟨herr, hdb⟩, fun hpos => by rw [hdb]; exact hpos⟩
  · constructor
    · intro hbad
      exfalso
      rcases hbad with h | ⟨a', ha', h⟩
      · rw [ha] at h; cases h
      · rw [ha] at ha'
        injection ha' with haa
        subst haa
        rcases h with h | ⟨q', hq', hle⟩
        · rw [hf] at h; cases h
        · rw [hf] at hq'
          injection hq' with hqq
          subst hqq
          exact absurd hle (not_le.2 hq)
    · intro hpos
      rw [hdb]
      exact add_expense_amount_preserved db now q (pyUpper c) d
        (descValue req.description) hpos hq

/-- Witness for C4: a request with amount −5 is rejected without mutation,
and positivity is preserved on the resulting (unchanged) empty store. -/
theorem amount_validation_and_positivity_witness :
    badAmount ⟨some (.num (-5)), some "food", some "2024-01-15", .absent⟩ ∧
    ((create_expense ⟨0, []⟩ 1000
        ⟨some (.num (-5)), some "food", some "2024-01-15",
          .absent⟩).1.isClientError = true ∧
     (create_expense ⟨0, []⟩ 1000
        ⟨some (.num (-5)), some "food", some "2024-01-15", .absent⟩).2
       = (⟨0, []⟩ : DB)) ∧
    (∀ e ∈ (⟨0, []⟩ : DB).rows, 0 < e.amount) ∧
    (∀ e ∈ (create_expense ⟨0, []⟩ 1000
        ⟨some (.num (-5)), some "food", some "2024-01-15",
          .absent⟩).2.rows, 0 < e.amount) :=
  ⟨Or.inr ⟨.num (-5), rfl, Or.inr ⟨-5, rfl, by norm_num⟩⟩,
   (amount_validation_and_positivity ⟨0, []⟩ 1000
      ⟨some (.num (-5)), some "food", some "2024-01-15", .absent⟩).1
     (Or.inr ⟨.num (-5), rfl, Or.inr ⟨-5, rfl, by norm_num⟩⟩),
   by simp,
   (amount_validation_and_positivity ⟨0, []⟩ 1000
      ⟨some (.num (-5)), some "food", some "2024-01-15", .absent⟩).2
     (by simp)⟩

/-- A create request whose category is missing, empty, or not in
`VALID_CATEGORIES` after uppercasing. -/
def badCategory (req : CreateRequest) : Prop :=
  req.category = none ∨ req.category = some "" ∨
    ∃ c, req.category = some c ∧ pyUpper c ∉ VALID_CATEGORIES

/-- The expense returned by `add_expense` carries exactly the category the
store was called with: a fresh row is built from it, and a duplicate row
matched it through the `WHERE category = ?` clause. -/
theorem add_expense_result_category (db : DB) (now : Nat) (a : Rat)
    (c d : String) (ds : Option String) :
    (add_expense db now a c d ds).1.expense.category = c := by
  cases h : check_duplicate db now a c d ds with
  | some m =>
    rw [add_expense_of_some h]
    have hm := (check_duplicate_mem h).2.1
    simp only [matchesTuple, Bool.and_eq_true, decide_eq_true_eq] at hm
    exact hm.1.1.2
  | none => rw [add_expense_of_none h]

/-- C5. The create endpoint rejects with a 400 client error any request
whose category is missing, empty, or (after uppercasing) outside the fixed
11-label set, without touching the store; it preserves the category-closure
invariant; and on success the stored/returned record's category is the
submitted category uppercased, a member of the fixed set. -/
theorem category_validation_and_closure (db : DB) (now : Nat)
    (req : CreateRequest) :
    (badCategory req →
      (create_expense db now req).1.isClientError = true ∧
      (create_expense db now req).2 = db) ∧
    ((∀ e ∈ db.rows, e.category ∈ VALID_CATEGORIES) →
      ∀ e ∈ (create_expense db now req).2.rows,
        e.category ∈ VALID_CATEGORIES) ∧
    (∀ c r, req.category = some c →
      ((create_expense db now req).1 = .created r ∨
       (create_expense db now req).1 = .duplicate r) →
      r.expense.category = pyUpper c ∧
        r.expense.category ∈ VALID_CATEGORIES) := by
  rcases create_expense_cases db now req with ⟨herr, hdb⟩ |
    ⟨a, q, c, d, ha, hf, hq, hcat, hc, hv, hdate, hd, hdb, hres⟩
  · refine ⟨fun _ => ⟨herr, hdb⟩, fun hcl => by rw [hdb]; exact hcl, ?_⟩
    intro c' r _ hcr
    exfalso
    rcases hcr with h | h <;> rw [h] at herr <;>
      simp [CreateResponse.isClientError] at herr
  · refine ⟨?_, ?_, ?_⟩
    · intro hbad
      exfalso
      rcases hbad with h | h | ⟨c', hc', hnv⟩
      · rw [hcat] at h; cases h
      · rw [hcat] at h
        injection h with h'
        exact hc h'
      · rw [hcat] at hc'
        injection hc' with h'
        subst h'
        exact hnv hv
    · intro hcl e he
      rw [hdb] at he
      rcases mem_add_expense_rows he with h | h
      · exact hcl e h
      · subst h; exact hv
    · intro c' r hc' hcr
      rw [hcat] at hc'
      injection hc' with h'
      subst h'
      have hr : r = (add_expense db now q (pyUpper c) d
          (descValue req.description)).1 := by
        rcases hres with h | h <;> rcases hcr with h2 | h2 <;>
          rw [h] at h2 <;> first
          | (injection h2 with h3; exact h3.symm)
          | cases h2
      subst hr
      refine ⟨add_expense_result_category db now q (pyUpper c) d
        (descValue req.description), ?_⟩
      rw [add_expense_result_category db now q (pyUpper c) d
        (descValue req.description)]
      exact hv

/-- Witness for C5: category "WRONG" is rejected without mutation, and a
lowercase "food" request is stored as "FOOD", a member of the fixed set. -/
theorem category_validation_and_closure_witness :
    badCategory ⟨some (.num 5), some "WRONG", some "2024-01-15", .absent⟩ ∧
    ((create_expense ⟨0, []⟩ 1000
        ⟨some (.num 5), some "WRONG", some "2024-01-15",
          .absent⟩).1.isClientError = true ∧
     (create_expense ⟨0, []⟩ 1000
        ⟨some (.num 5), some "WRONG", some "2024-01-15", .absent⟩).2
       = (⟨0, []⟩ : DB)) ∧
    ((create_expense ⟨0, []⟩ 1000
        ⟨some (.num 5), some "food", some "2024-01-15", .absent⟩).1
       = .created (add_expense ⟨0, []⟩ 1000 5 "FOOD" "2024-01-15"
          (some "")).1) ∧
    ((add_expense ⟨0, []⟩ 1000 5 "FOOD" "2024-01-15"
        (some "")).1.expense.category = pyUpper "food" ∧
     (add_expense ⟨0, []⟩ 1000 5 "FOOD" "2024-01-15"
        (some "")).1.expense.category ∈ VALID_CATEGORIES) :=
  ⟨Or.inr (Or.inr ⟨"WRONG", rfl, by decide⟩),
   (category_validation_and_closure ⟨0, []⟩ 1000
      ⟨some (.num 5), some "WRONG", some "2024-01-15", .absent⟩).1
     (Or.inr (Or.inr ⟨"WRONG", rfl, by decide⟩)),
   by decide,
   (category_validation_and_closure ⟨0, []⟩ 1000
      ⟨some (.num 5), some "food", some "2024-01-15", .absent⟩).2.2
     "food" (add_expense ⟨0, []⟩ 1000 5 "FOOD" "2024-01-15" (some "")).1
     rfl (Or.inl (by decide))⟩

theorem ascLE_total (a b : Expense) : (ascLE a b || ascLE b a) = true := by
  simp only [ascLE, Bool.or_eq_true, Bool.and_eq_true, decide_eq_true_eq]
  rcases lt_trichotomy a.expense_date b.expense_date with h | h | h
  · exact Or.inl (Or.inl h)
  · rcases Nat.le_total a.created_at b.created_at with h2 | h2
    · exact Or.inl (Or.inr ⟨h, h2⟩)
    · exact Or.inr (Or.inr ⟨h.symm, h2⟩)
  · exact Or.inr (Or.inl h)

theorem ascLE_trans (a b c : Expense) (h1 : ascLE a b = true)
    (h2 : ascLE b c = true) : ascLE a c = true := by
  simp only [ascLE, Bool.or_eq_true, Bool.and_eq_true, decide_eq_true_eq]
    at h1 h2 ⊢
  rcases h1 with h1 | ⟨e1, l1⟩ <;> rcases h2 with h2 | ⟨e2, l2⟩
  · exact Or.inl (lt_trans h1 h2)
  · exact Or.inl (e2 ▸ h1)
  · exact Or.inl (by rw [e1]; exact h2)
  · exact Or.inr ⟨e1.trans e2, le_trans l1 l2⟩

theorem descLE_total (a b : Expense) : (descLE a b || descLE b a) = true := by
  rw [descLE, descLE, Bool.or_comm]
  exact ascLE_total a b

theorem descLE_trans (a b c : Expense) (h1 : descLE a b = true)
    (h2 : descLE b c = true) : descLE a c = true :=
  ascLE_trans c b a h2 h1

/-- Under the ascending comparison, two rows with equal dates are ordered
by `created_at`. -/
theorem ascLE_same_date {a b : Expense} (h : ascLE a b = true)
    (hd : a.expense_date = b.expense_date) :
    a.created_at ≤ b.created_at := by
  simp only [ascLE, Bool.or_eq_true, Bool.and_eq_true, decide_eq_true_eq] at h
  rcases h with h | ⟨_, h⟩
  · rw [hd] at h; exact absurd h (lt_irrefl _)
  · exact h

/-- Under the descending comparison, two rows with equal dates are ordered
by reverse `created_at`. -/
theorem descLE_same_date {a b : Expense} (h : descLE a b = true)
    (hd : a.expense_date = b.expense_date) :
    b.created_at ≤ a.created_at :=
  ascLE_same_date h hd.symm

/-- C6. `get_expenses` returns exactly the category-filtered records
(as a permutation), sorted by `expense_date` then `created_at`, both
ascending by default and both descending when `sort_by_date_desc` is set;
consequently, in the ascending listing any two records sharing an
`expense_date` appear in creation order (`created_at`), and in the
descending listing in reverse creation order. -/
theorem listing_sorted_and_complete (db : DB) (cat : Option String) :
    (get_expenses db cat false).Perm (filteredRows db cat) ∧
    (get_expenses db cat true).Perm (filteredRows db cat) ∧
    (get_expenses db cat false).Pairwise (fun a b => ascLE a b = true) ∧
    (get_expenses db cat true).Pairwise (fun a b => descLE a b = true) ∧
    (get_expenses db cat false).Pairwise (fun a b =>
      a.expense_date = b.expense_date → a.created_at ≤ b.created_at) ∧
    (get_expenses db cat true).Pairwise (fun a b =>
      a.expense_date = b.expense_date → b.created_at ≤ a.created_at) := by
  have hasc : ((filteredRows db cat).mergeSort ascLE).Pairwise
      (fun a b => ascLE a b = true) :=
    List.sorted_mergeSort ascLE_trans ascLE_total (filteredRows db cat)
  have hdesc : ((filteredRows db cat).mergeSort descLE).Pairwise
      (fun a b => descLE a b = true) :=
    List.sorted_mergeSort descLE_trans descLE_total (filteredRows db cat)
  refine ⟨List.mergeSort_perm (filteredRows db cat) ascLE,
    List.mergeSort_perm (filteredRows db cat) descLE, hasc, hdesc, ?_, ?_⟩
  · exact hasc.imp fun h hd => ascLE_same_date h hd
  · exact hdesc.imp fun h hd => descLE_same_date h hd

/-- Concrete store for the C6 witness: dates 2024-01-03, 2024-01-01,
2024-01-01 with distinct creation order, as in the design document. -/
def dbSort : DB :=
  ⟨3, [⟨1, 10, "FOOD", none, "2024-01-03", 300⟩,
       ⟨2, 20, "RENT", none, "2024-01-01", 100⟩,
       ⟨3, 30, "FOOD", none, "2024-01-01", 200⟩]⟩

/-- Witness for C6 at the concrete three-row store. -/
theorem listing_sorted_and_complete_witness :
    (get_expenses dbSort none false).Perm (filteredRows dbSort none) ∧
    (get_expenses dbSort none false).Pairwise (fun a b =>
      a.expense_date = b.expense_date → a.created_at ≤ b.created_at) :=
  ⟨(listing_sorted_and_complete dbSort none).1,
   (listing_sorted_and_complete dbSort none).2.2.2.2.1⟩

/-- Sum of the amounts of the rows in a given category (the value of
`get_total_expenses` under a truthy category filter). -/
def totalFor (rows : List Expense) (c : String) : Rat :=
  ((rows.filter fun e => decide (e.category = c)).map (·.amount)).sum

theorem totalFor_cons (e : Expense) (rs : List Expense) (c : String) :
    totalFor (e :: rs) c
      = (if e.category = c then e.amount else 0) + totalFor rs c := by
  by_cases h : e.category = c
  · simp [totalFor, List.filter_cons, h]
  · simp [totalFor, List.filter_cons, h]

theorem sum_map_add_distrib (cs : List String) (f g : String → Rat) :
    (cs.map fun c => f c + g c).sum = (cs.map f).sum + (cs.map g).sum := by
  induction cs with
  | nil => simp
  | cons c cs ih => simp only [List.map_cons, List.sum_cons, ih]; ring

theorem sum_ite_single (cs : List String) (x : String) (a : Rat)
    (hnd : cs.Nodup) (hx : x ∈ cs) :
    (cs.map fun c => if x = c then a else 0).sum = a := by
  induction cs with
  | nil => cases hx
  | cons c cs ih =>
    rcases List.mem_cons.1 hx with h | h
    · subst h
      have hnotin : x ∉ cs := (List.nodup_cons.1 hnd).1
      have hz : (cs.map fun c => if x = c then a else 0).sum = 0 := by
        apply List.sum_eq_zero
        intro y hy
        rw [List.mem_map] at hy
        obtain ⟨c2, hc2, rfl⟩ := hy
        rw [if_neg]
        intro he
        exact hnotin (he ▸ hc2)
      rw [List.map_cons, List.sum_cons, if_pos rfl, hz, add_zero]
    · have hne : x ≠ c := by
        rintro rfl
        exact (List.nodup_cons.1 hnd).1 h
      simp only [List.map_cons, List.sum_cons, if_neg hne]
      rw [zero_add]
      exact ih (List.nodup_cons.1 hnd).2 h

/-- Partition of the total over a duplicate-free list of categories that
covers every stored row. -/
theorem sum_totalFor (rows : List Expense) (cs : List String)
    (hnd : cs.Nodup) (hmem : ∀ e ∈ rows, e.category ∈ cs) :
    (cs.map fun c => totalFor rows c).sum = (rows.map (·.amount)).sum := by
  induction rows with
  | nil =>
    simp only [List.map_nil, List.sum_nil]
    apply List.sum_eq_zero
    intro y hy
    rw [List.mem_map] at hy
    obtain ⟨c2, _, rfl⟩ := hy
    rfl
  | cons e rs ih =>
    simp only [totalFor_cons, List.map_cons, List.sum_cons]
    rw [sum_map_add_distrib,
      sum_ite_single cs e.category e.amount hnd (hmem e (List.mem_cons_self e rs)),
      ih fun x hx => hmem x (List.mem_cons_of_mem e hx)]

/-- Under a truthy (nonempty) category filter, `get_total_expenses` is the
per-category sum. -/
theorem get_total_expenses_some (db : DB) (c : String) (hc : c ≠ "") :
    get_total_expenses db (some c) = totalFor db.rows c := by
  simp [get_total_expenses, filteredRows, totalFor, hc]

/-- C7. `get_total_expenses` returns exactly 0 when no records match
the filter, and the unfiltered total equals the sum over the 11 categories
of the per-category totals (given the storage-level category closure). -/
theorem total_zero_and_partition (db : DB) (cat : Option String) :
    (filteredRows db cat = [] → get_total_expenses db cat = 0) ∧
    ((∀ e ∈ db.rows, e.category ∈ VALID_CATEGORIES) →
      get_total_expenses db none
        = (VALID_CATEGORIES.map fun c => get_total_expenses db (some c)).sum) := by
  constructor
  · intro h
    unfold get_total_expenses
    rw [h]
    rfl
  · intro hcl
    have hnd : VALID_CATEGORIES.Nodup := by decide
    have hmap : (VALID_CATEGORIES.map fun c => get_total_expenses db (some c))
        = VALID_CATEGORIES.map fun c => totalFor db.rows c := by
      apply List.map_congr_left
      intro c hc
      have hall : ∀ x ∈ VALID_CATEGORIES, x ≠ "" := by decide
      exact get_total_expenses_some db c (hall c hc)
    rw [hmap, sum_totalFor db.rows VALID_CATEGORIES hnd hcl]
    rfl

/-- Witness for C7: on the concrete three-row store, the TRAVEL total is 0
and the grand total 60 equals the sum of the 11 per-category totals. -/
theorem total_zero_and_partition_witness :
    filteredRows dbSort (some "TRAVEL") = [] ∧
    get_total_expenses dbSort (some "TRAVEL") = 0 ∧
    (∀ e ∈ dbSort.rows, e.category ∈ VALID_CATEGORIES) ∧
    get_total_expenses dbSort none
      = (VALID_CATEGORIES.map fun c => get_total_expenses dbSort (some c)).sum :=
  ⟨by decide,
   (total_zero_and_partition dbSort (some "TRAVEL")).1 (by decide),
   by decide,
   (total_zero_and_partition dbSort none).2 (by decide)⟩

/-- Every row selected by the optional category filter is a stored row. -/
theorem mem_filteredRows {db : DB} {cat : Option String} {e : Expense}
    (h : e ∈ filteredRows db cat) : e ∈ db.rows := by
  cases cat with
  | none => exact h
  | some s =>
    simp only [filteredRows] at h
    by_cases hs : s = ""
    · rw [if_pos hs] at h; exact h
    · rw [if_neg hs] at h; exact (List.mem_filter.1 h).1

/-- Every row returned by a listing is a stored row. -/
theorem mem_get_expenses {db : DB} {cat : Option String} {flag : Bool}
    {e : Expense} (h : e ∈ get_expenses db cat flag) : e ∈ db.rows := by
  unfold get_expenses at h
  cases flag <;>
    simp only [Bool.false_eq_true, if_false, if_true, ite_false, ite_true,
      List.mem_mergeSort] at h <;>
    exact mem_filteredRows h

/-- C8. `delete_expense` returns true exactly when a row with the id is
stored; on false the state is unchanged; the resulting rows are exactly the
stored rows without that id; a second delete of the same id returns false
and changes nothing; and no subsequent listing contains the id. -/
theorem delete_iff_present (db : DB) (i : Nat) :
    ((delete_expense db i).1 = true ↔ ∃ e ∈ db.rows, e.id = i) ∧
    ((delete_expense db i).1 = false → (delete_expense db i).2 = db) ∧
    (delete_expense db i).2.rows
      = db.rows.filter (fun e => decide (e.id ≠ i)) ∧
    (∀ e ∈ (delete_expense db i).2.rows, e.id ≠ i) ∧
    (delete_expense (delete_expense db i).2 i).1 = false ∧
    (delete_expense (delete_expense db i).2 i).2 = (delete_expense db i).2 ∧
    (∀ cat flag e, e ∈ get_expenses (delete_expense db i).2 cat flag →
      e.id ≠ i) := by
  have hmemfil : ∀ e ∈ db.rows.filter (fun e => decide (e.id ≠ i)), e.id ≠ i := by
    intro e he
    have h2 := (List.mem_filter.1 he).2
    simpa using h2
  by_cases h : (db.rows.any fun e => decide (e.id = i)) = true
  · have hdel : delete_expense db i =
        (true, { db with rows := db.rows.filter fun e => decide (e.id ≠ i) }) := by
      unfold delete_expense
      rw [if_pos h]
    rw [hdel]
    have hnone : (((db.rows.filter fun e => decide (e.id ≠ i)).any
        fun e => decide (e.id = i)) = false) := by
      rw [List.any_eq_false]
      intro e he
      have := hmemfil e he
      simpa using this
    have hdel2 : delete_expense
        ({ db with rows := db.rows.filter fun e => decide (e.id ≠ i) }) i =
        (false, { db with rows := db.rows.filter fun e => decide (e.id ≠ i) }) := by
      unfold delete_expense
      rw [if_neg (by simp [hnone])]
    rw [hdel2]
    refine ⟨⟨fun _ => ?_, fun _ => rfl⟩, fun hf => absurd hf (by simp), rfl,
      hmemfil, rfl, rfl, fun cat flag e he => hmemfil e (mem_get_expenses he)⟩
    rw [List.any_eq_true] at h
    obtain ⟨e, he, hp⟩ := h
    exact ⟨e, he, by simpa using hp⟩
  · have hb : (db.rows.any fun e => decide (e.id = i)) = false := by
      revert h
      cases db.rows.any fun e => decide (e.id = i) <;> simp
    have hall : ∀ e ∈ db.rows, e.id ≠ i := by
      rw [List.any_eq_false] at hb
      intro e he
      have := hb e he
      simpa using this
    have hdel : delete_expense db i = (false, db) := by
      unfold delete_expense
      rw [if_neg h]
    rw [hdel]
    refine ⟨?_, fun _ => rfl, ?_, hall, ?_, ?_, ?_⟩
    · simp only [Bool.false_eq_true, false_iff]
      rintro ⟨e, he, hid⟩
      exact hall e he hid
    · symm
      rw [List.filter_eq_self]
      intro e he
      simpa using hall e he
    · rw [hdel]
    · rw [hdel]
    · intro cat flag e he
      exact hall e (mem_get_expenses he)

/-- Witness for C8: deleting id 1 from the one-row store returns true, the
second delete returns false and leaves the state unchanged. -/
theorem delete_iff_present_witness :
    (∃ e ∈ dbGap.rows, e.id = 1) ∧
    (delete_expense dbGap 1).1 = true ∧
    (delete_expense (delete_expense dbGap 1).2 1).1 = false ∧
    (delete_expense (delete_expense dbGap 1).2 1).2
      = (delete_expense dbGap 1).2 :=
  ⟨⟨⟨1, 100, "FOOD", some "lunch", "2024-01-15", 1000⟩, by decide, rfl⟩,
   (delete_iff_present dbGap 1).1.mpr
     ⟨⟨1, 100, "FOOD", some "lunch", "2024-01-15", 1000⟩, by decide, rfl⟩,
   (delete_iff_present dbGap 1).2.2.2.2.1,
   (delete_iff_present dbGap 1).2.2.2.2.2.1⟩

/-- The function `delete_expense` never changes the `AUTOINCREMENT` sequence and only
removes rows. -/
theorem delete_expense_state (db : DB) (i : Nat) :
    (delete_expense db i).2.seq = db.seq ∧
    (delete_expense db i).2.rows.Sublist db.rows := by
  unfold delete_expense
  split
  · exact ⟨rfl, List.filter_sublist _⟩
  · exact ⟨rfl, List.Sublist.refl _⟩

/-- C9. Ids are system-assigned and never reused: on a well-formed
store, any operation (insert or delete) preserves well-formedness (all ids
bounded by the sequence value and pairwise distinct), never decreases the
sequence, and leaves every pre-existing row untouched — the only possible
new row carries id `seq + 1`, strictly greater than every id ever assigned
(deletions do not reset the sequence).  Moreover a successful insertion
assigns exactly id `seq + 1` and advances the sequence to it, so ids are
strictly increasing across successive insertions. -/
theorem id_assignment_invariants (db : DB) (hwf : DBwf db) :
    (∀ op, DBwf (applyOp db op) ∧ db.seq ≤ (applyOp db op).seq ∧
      ∀ e ∈ (applyOp db op).rows,
        e ∈ db.rows ∨ (e.id = db.seq + 1 ∧ ∀ e2 ∈ db.rows, e2.id < e.id)) ∧
    (∀ now a c d ds, check_duplicate db now a c d ds = none →
      (add_expense db now a c d ds).1.expense.id = db.seq + 1 ∧
      (add_expense db now a c d ds).2.seq = db.seq + 1) := by
  obtain ⟨hle, hnd⟩ := hwf
  have hadd : ∀ now a c d ds,
      DBwf (add_expense db now a c d ds).2 ∧
      db.seq ≤ (add_expense db now a c d ds).2.seq ∧
      ∀ e ∈ (add_expense db now a c d ds).2.rows,
        e ∈ db.rows ∨ (e.id = db.seq + 1 ∧ ∀ e2 ∈ db.rows, e2.id < e.id) := by
    intro now a c d ds
    cases h : check_duplicate db now a c d ds with
    | some m =>
      rw [add_expense_of_some h]
      exact ⟨⟨hle, hnd⟩, le_refl _, fun e he => .inl he⟩
    | none =>
      rw [add_expense_of_none h]
      refine ⟨⟨?_, ?_⟩, Nat.le_succ _, ?_⟩
      · intro e he
        rcases List.mem_append.1 he with h1 | h1
        · exact le_trans (hle e h1) (Nat.le_succ _)
        · simp only [List.mem_singleton] at h1
          subst h1
          exact Nat.le_refl _
      · rw [List.map_append, List.nodup_append]
        refine ⟨hnd, List.nodup_singleton _, ?_⟩
        intro x hx hx2
        rw [List.mem_map] at hx
        obtain ⟨e, he, rfl⟩ := hx
        simp only [List.map_cons, List.map_nil, List.mem_singleton] at hx2
        have h2 := hle e he
        rw [hx2] at h2
        exact absurd h2 (by simp)
      · intro e he
        rcases List.mem_append.1 he with h1 | h1
        · exact .inl h1
        · simp only [List.mem_singleton] at h1
          subst h1
          refine .inr ⟨rfl, ?_⟩
          intro e2 he2
          have h2 := hle e2 he2
          show e2.id < db.seq + 1
          omega
  constructor
  · intro op
    cases op with
    | add now a c d ds => exact hadd now a c d ds
    | del i =>
      obtain ⟨hseq, hsub⟩ := delete_expense_state db i
      simp only [applyOp]
      refine ⟨⟨?_, ?_⟩, le_of_eq hseq.symm, ?_⟩
      · intro e he
        rw [hseq]
        exact hle e (hsub.subset he)
      · exact List.Nodup.sublist (hsub.map _) hnd
      · intro e he
        exact .inl (hsub.subset he)
  · intro now a c d ds hnone
    rw [add_expense_of_none hnone]
    exact ⟨rfl, rfl⟩

/-- Witness for C9: inserting into the concrete one-row store assigns id 2
= seq + 1 and preserves well-formedness. -/
theorem id_assignment_invariants_witness :
    DBwf dbGap ∧
    DBwf (applyOp dbGap (.add 2000 7 "RENT" "2024-02-02" none)) ∧
    dbGap.seq ≤ (applyOp dbGap (.add 2000 7 "RENT" "2024-02-02" none)).seq ∧
    check_duplicate dbGap 2000 7 "RENT" "2024-02-02" none = none ∧
    (add_expense dbGap 2000 7 "RENT" "2024-02-02" none).1.expense.id
      = dbGap.seq + 1 :=
  ⟨⟨by decide, by decide⟩,
   ((id_assignment_invariants dbGap ⟨by decide, by decide⟩).1
     (.add 2000 7 "RENT" "2024-02-02" none)).1,
   ((id_assignment_invariants dbGap ⟨by decide, by decide⟩).1
     (.add 2000 7 "RENT" "2024-02-02" none)).2.1,
   by decide,
   ((id_assignment_invariants dbGap ⟨by decide, by decide⟩).2
     2000 7 "RENT" "2024-02-02" none (by decide)).1⟩

/-- A stored-side description match against a non-null given description
pins the stored description to the same string. -/
theorem descMatch_eq_some {x : Option String} {s : String}
    (h : descMatch x (some s) = true) : x = some s := by
  cases x with
  | none => simp [descMatch] at h
  | some t =>
    simp only [descMatch, beq_iff_eq] at h
    rw [h]

/-- The expense returned by `add_expense` with a non-null description
carries exactly that description (fresh row by construction, duplicate row
through the SQL description match). -/
theorem add_expense_result_description (db : DB) (now : Nat) (a : Rat)
    (c d : String) (s : String) :
    (add_expense db now a c d (some s)).1.expense.description = some s := by
  cases h : check_duplicate db now a c d (some s) with
  | some m =>
    rw [add_expense_of_some h]
    have hm := (check_duplicate_mem h).2.1
    simp only [matchesTuple, Bool.and_eq_true, decide_eq_true_eq] at hm
    exact descMatch_eq_some hm.2
  | none => rw [add_expense_of_none h]

/-- C10 counterexample. A request carrying an explicit JSON
`null` description (`{"amount": 5, "category": "FOOD",
"date": "2024-01-15", "description": null}`) is accepted by the create
endpoint — `data.get('description', '')` applies the `''` default only to
a *missing* key — and the stored row has a null description, so not every
record created through the endpoint has a non-null description. -/
theorem http_null_description_stored_null :
    (create_expense (⟨0, []⟩ : DB) 1000
        ⟨some (.num 5), some "FOOD", some "2024-01-15", .null⟩).1.isClientError
      = false ∧
    (create_expense (⟨0, []⟩ : DB) 1000
        ⟨some (.num 5), some "FOOD", some "2024-01-15", .null⟩).2.rows.length
      = 1 ∧
    ∀ e ∈ (create_expense (⟨0, []⟩ : DB) 1000
        ⟨some (.num 5), some "FOOD", some "2024-01-15", .null⟩).2.rows,
      e.description = none := by
  decide

/-- C10 amended. When the request *omits* the description key, the
endpoint substitutes the empty string: the call is indistinguishable from
one with an explicit `""` description, and any record it creates (or
returns as duplicate) has description `""` — so omitted and empty-string
descriptions are stored and matched identically.  A request with an
explicit JSON `null` description, however, passes `None` through and is
stored with a null description. -/
theorem absent_description_normalized_to_empty (db : DB) (now : Nat)
    (amt : Option AmountInput) (cat date : Option String) :
    create_expense db now ⟨amt, cat, date, .absent⟩
      = create_expense db now ⟨amt, cat, date, .str ""⟩ ∧
    (∀ r, (create_expense db now ⟨amt, cat, date, .absent⟩).1 = .created r →
      r.expense.description = some "") ∧
    descValue .absent = some "" ∧ descValue .null = none := by
  refine ⟨rfl, ?_, rfl, rfl⟩
  intro r hr
  rcases create_expense_cases db now ⟨amt, cat, date, .absent⟩ with
    ⟨herr, _⟩ | ⟨a, q, c, d, _, _, _, _, _, _, _, _, _, hres⟩
  · exfalso
    rw [hr] at herr
    simp [CreateResponse.isClientError] at herr
  · have hrX : r = (add_expense db now q (pyUpper c) d
        (descValue (⟨amt, cat, date, .absent⟩ : CreateRequest).description)).1 := by
      rcases hres with h | h <;> rw [h] at hr <;> first
        | (injection hr with h2; exact h2.symm)
        | cases hr
    rw [hrX]
    exact add_expense_result_description db now q (pyUpper c) d ""

/-- Witness for the amended C10 at a concrete request. -/
theorem absent_description_normalized_to_empty_witness :
    create_expense ⟨0, []⟩ 1000
        ⟨some (.num 5), some "FOOD", some "2024-01-15", .absent⟩
      = create_expense ⟨0, []⟩ 1000
        ⟨some (.num 5), some "FOOD", some "2024-01-15", .str ""⟩ ∧
    (create_expense ⟨0, []⟩ 1000
        ⟨some (.num 5), some "FOOD", some "2024-01-15", .absent⟩).1
      = .created (add_expense ⟨0, []⟩ 1000 5 "FOOD" "2024-01-15"
          (some "")).1 ∧
    (add_expense ⟨0, []⟩ 1000 5 "FOOD" "2024-01-15"
        (some "")).1.expense.description = some "" :=
  ⟨(absent_description_normalized_to_empty ⟨0, []⟩ 1000 (some (.num 5))
      (some "FOOD") (some "2024-01-15")).1,
   by decide,
   (absent_description_normalized_to_empty ⟨0, []⟩ 1000 (some (.num 5))
      (some "FOOD") (some "2024-01-15")).2.1
     (add_expense ⟨0, []⟩ 1000 5 "FOOD" "2024-01-15" (some "")).1
     (by decide)⟩

end PersonalExpense
